import Mathlib

/-!
Verification of the riscv-asm RV32 instruction decoder and its ELF front end.

The definitions below are a shallow embedding of the Rust sources:
  * `src/decode.rs` — the `Bits` trait impl for `u32` (`bit`, `bits`,
    `sign_ext`) and the decoder `decode_opcode`;
  * `src/instr.rs` — the `Reg`, `Instr` and `Arg` types and `Instr::args`;
  * `src/lib.rs` — `parse_elf`.

Machine integers are modelled with `Nat` (values kept below `2 ^ 32` by
hypotheses) and `Int` for Rust's `i32`.  A Rust operation that can panic in
debug builds (shift by 32 or more bits, out-of-range slice, the explicit
`panic!` in `parse_elf`) is modelled by an `Option`, with `none` standing
for the panic.
-/

set_option maxHeartbeats 1600000

namespace Riscv

/-- Embeds `u32::bit` from src/decode.rs: `(self >> idx) & 0x1`. -/
def bit (w idx : Nat) : Nat := (w >>> idx) &&& 1

/-- Embeds `u32::bits` from src/decode.rs:
`mask = u32::MAX >> (31 - hi); (self & mask) >> lo`.
`u32::MAX` is `2 ^ 32 - 1`.  The Rust subtraction `31 - hi` is on `u8` and
would panic for `hi > 31`; every call site uses `hi ≤ 31`, and the theorems
below carry that precondition, so the truncated `Nat` subtraction agrees
with the source on the stated domain. -/
def bits (w hi lo : Nat) : Nat := (w &&& ((2 ^ 32 - 1) >>> (31 - hi))) >>> lo

/-- Reinterpret an unsigned 32-bit value as a signed one (Rust `as i32`). -/
def toI32 (x : Nat) : Int := if x < 2 ^ 31 then (x : Int) else (x : Int) - 2 ^ 32

/-- Rust `u32` left shift `x << n`.  A shift amount of 32 or more is an
arithmetic-overflow panic in debug builds, modelled by `none`; otherwise the
result keeps the low 32 bits. -/
def shl_u32 (x n : Nat) : Option Nat :=
  if n < 32 then some ((x <<< n) % 2 ^ 32) else none

/-- Embeds `u32::sign_ext` from src/decode.rs:
`mask = if self.bit(hi) == 0 { 0 } else { u32::MAX << (hi + 1) };
(self | mask) as i32`.
Or-ing with the zero mask is the identity, so the `bit = 0` branch returns
the reinterpreted input directly.  The `u32::MAX << (hi + 1)` shift panics
(debug) when `hi = 31`, hence the `Option` result. -/
def sign_ext (w hi : Nat) : Option Int :=
  if bit w hi = 0 then
    some (toI32 w)
  else
    match shl_u32 (2 ^ 32 - 1) (hi + 1) with
    | some mask => some (toI32 (w ||| mask))
    | none => none

/-- Embeds `enum Reg` from src/instr.rs: the 32 ABI register names. -/
inductive Reg where
  | Zero | Ra | Sp | Gp | Tp | T0 | T1 | T2
  | S0 | S1 | A0 | A1 | A2 | A3 | A4 | A5
  | A6 | A7 | S2 | S3 | S4 | S5 | S6 | S7
  | S8 | S9 | S10 | S11 | T3 | T4 | T5 | T6
deriving DecidableEq

/-- Embeds `impl TryFrom<u32> for Reg` from src/instr.rs: indices 0–31 map
to the corresponding register, anything else is the `RegIndexError` case,
modelled as `none`. -/
def Reg.tryFrom (idx : Nat) : Option Reg :=
  match idx with
  | 0 => some .Zero | 1 => some .Ra | 2 => some .Sp | 3 => some .Gp
  | 4 => some .Tp | 5 => some .T0 | 6 => some .T1 | 7 => some .T2
  | 8 => some .S0 | 9 => some .S1 | 10 => some .A0 | 11 => some .A1
  | 12 => some .A2 | 13 => some .A3 | 14 => some .A4 | 15 => some .A5
  | 16 => some .A6 | 17 => some .A7 | 18 => some .S2 | 19 => some .S3
  | 20 => some .S4 | 21 => some .S5 | 22 => some .S6 | 23 => some .S7
  | 24 => some .S8 | 25 => some .S9 | 26 => some .S10 | 27 => some .S11
  | 28 => some .T3 | 29 => some .T4 | 30 => some .T5 | 31 => some .T6
  | _ => none

/-- Embeds `enum Instr` from src/instr.rs.  `i32` fields become `Int`,
`u32`/`u16`/`u8` fields become `Nat`.

The six CSR variants are the one place where the snapshot's two files
disagree with each other: src/instr.rs declares them with `rd`/`rs1`/`csr`
(and `src` for the immediate forms) fields, while `decode_opcode` in
src/decode.rs — and the unit tests next to it — construct them with the
shapes `Csrrw { rs1, imm12 }`, `Csrrs { rd, rs1, imm12 }`, `Csrrc { rs1 }`,
`Csrrwi { rd }`, `Csrrsi { imm5, imm12 }` and `Csrrci { imm5, imm12 }`
(spec.md §9 flags exactly this inconsistency between source iterations).
Since the claims under test are about what `decode_opcode` produces, the
variants are embedded with the field shapes `decode_opcode` constructs.
`Hint`'s unit payload is dropped. -/
inductive Instr where
  | Illegal
  | Lb (rd rs1 : Reg) (imm : Int)
  | Lh (rd rs1 : Reg) (imm : Int)
  | Lw (rd rs1 : Reg) (imm : Int)
  | Ld (rd rs1 : Reg) (imm : Int)
  | Lbu (rd rs1 : Reg) (imm : Nat)
  | Lhu (rd rs1 : Reg) (imm : Nat)
  | Lwu (rd rs1 : Reg) (imm : Nat)
  | Fence (rd rs1 : Reg) (successor predecessor fm : Nat)
  | FenceI (rd rs1 : Reg) (imm12 : Int)
  | Addi (rd rs1 : Reg) (imm : Int)
  | Slli (rd rs1 : Reg) (imm5 : Nat)
  | Slti (rd rs1 : Reg) (imm12 : Int)
  | Sltiu (rd rs1 : Reg) (imm12 : Int)
  | Xori (rd rs1 : Reg) (imm12 : Int)
  | Srli (rd rs1 : Reg) (imm5 : Nat)
  | Srai (rd rs1 : Reg) (imm5 : Nat)
  | Ori (rd rs1 : Reg) (imm12 : Int)
  | Andi (rd rs1 : Reg) (imm : Int)
  | Auipc (rd : Reg) (imm : Nat)
  | Sb (rs1 rs2 : Reg) (imm : Int)
  | Sh (rs1 rs2 : Reg) (imm : Int)
  | Sw (rs1 rs2 : Reg) (imm : Int)
  | Sd (rs1 rs2 : Reg) (imm : Int)
  | Add (rd rs1 rs2 : Reg)
  | Sub (rd rs1 rs2 : Reg)
  | Sll (rd rs1 rs2 : Reg)
  | Slt (rd rs1 rs2 : Reg)
  | Sltu (rd rs1 rs2 : Reg)
  | Xor (rd rs1 rs2 : Reg)
  | Srl (rd rs1 rs2 : Reg)
  | Sra (rd rs1 rs2 : Reg)
  | Or (rd rs1 rs2 : Reg)
  | And (rd rs1 rs2 : Reg)
  | Lui (rd : Reg) (imm : Nat)
  | Beq (rs1 rs2 : Reg) (imm : Int)
  | Bne (rs1 rs2 : Reg) (imm : Int)
  | Blt (rs1 rs2 : Reg) (imm : Int)
  | Bge (rs1 rs2 : Reg) (imm : Int)
  | Bltu (rs1 rs2 : Reg) (imm : Int)
  | Bgeu (rs1 rs2 : Reg) (imm : Int)
  | Jalr (rd rs1 : Reg) (imm : Int)
  | Jal (rd : Reg) (imm : Int)
  | Ecall (rd rs1 : Reg)
  | Ebreak (rd rs1 : Reg)
  | Wfi
  | Uret
  | Sret
  | Mret
  | Csrrw (rs1 : Reg) (imm12 : Nat)
  | Csrrs (rd rs1 : Reg) (imm12 : Nat)
  | Csrrc (rs1 : Reg)
  | Csrrwi (rd : Reg)
  | Csrrsi (imm5 imm12 : Nat)
  | Csrrci (imm5 imm12 : Nat)
  | Hint

/-- Embeds `enum Arg` from src/instr.rs. -/
inductive Arg where
  | Register (reg : Reg)
  | UnsignedImm (imm : Nat)
  | SignedImm (imm : Int)
  | Special (text : String)
  | Address (base : Reg) (offset : Int)
deriving DecidableEq

/-- Rust `{:b}` formatting of an unsigned value: minimal binary digits. -/
def binFmt (n : Nat) : String := String.mk (Nat.toDigits 2 n)

/-- Embeds `Instr::args` from src/instr.rs, arm for arm in source order.
`rd.into()` is `Arg::Register`, `imm.into()` on `i32` is `Arg::SignedImm`,
and on `u32` is `Arg::UnsignedImm`. -/
def Instr.args : Instr → List Arg
  | .Illegal => []
  | .Hint => []
  | .Add rd rs1 rs2 => [.Register rd, .Register rs1, .Register rs2]
  | .Addi rd rs1 imm => [.Register rd, .Register rs1, .SignedImm imm]
  | .And rd rs1 rs2 => [.Register rd, .Register rs1, .Register rs2]
  | .Andi rd rs1 imm => [.Register rd, .Register rs1, .SignedImm imm]
  | .Auipc rd imm => [.Register rd, .UnsignedImm imm]
  | .Beq rs1 rs2 imm => [.Register rs1, .Register rs2, .SignedImm imm]
  | .Bge rs1 rs2 imm => [.Register rs1, .Register rs2, .SignedImm imm]
  | .Bgeu rs1 rs2 imm => [.Register rs1, .Register rs2, .SignedImm imm]
  | .Blt rs1 rs2 imm => [.Register rs1, .Register rs2, .SignedImm imm]
  | .Bltu rs1 rs2 imm => [.Register rs1, .Register rs2, .SignedImm imm]
  | .Bne rs1 rs2 imm => [.Register rs1, .Register rs2, .SignedImm imm]
  | .Csrrc _ => []
  | .Csrrci _ _ => []
  | .Csrrs _ _ _ => []
  | .Csrrsi _ _ => []
  | .Csrrw _ _ => []
  | .Csrrwi _ => []
  | .Ebreak _ _ => []
  | .Ecall _ _ => []
  | .Fence rd rs1 successor predecessor fm =>
      [.Register rd, .Register rs1,
       .Special ("succ: 0b" ++ binFmt successor ++ ", pred: 0b"
         ++ binFmt predecessor ++ ", fm: 0b" ++ binFmt fm)]
  | .FenceI rd rs1 imm12 => [.Register rd, .Register rs1, .SignedImm imm12]
  | .Jal rd imm => [.Register rd, .SignedImm imm]
  | .Jalr .Ra rs1 imm => [.Address rs1 imm]
  | .Jalr rd rs1 imm => [.Register rd, .Address rs1 imm]
  | .Lb rd rs1 imm => [.Register rd, .Address rs1 imm]
  | .Ld rd rs1 imm => [.Register rd, .Address rs1 imm]
  | .Lh rd rs1 imm => [.Register rd, .Address rs1 imm]
  | .Lw rd rs1 imm => [.Register rd, .Address rs1 imm]
  | .Lbu rd _ _ => [.Register rd]
  | .Lhu rd _ _ => [.Register rd]
  | .Lwu rd _ _ => [.Register rd]
  | .Lui rd imm => [.Register rd, .UnsignedImm imm]
  | .Mret => []
  | .Or rd rs1 rs2 => [.Register rd, .Register rs1, .Register rs2]
  | .Ori rd rs1 imm12 => [.Register rd, .Register rs1, .SignedImm imm12]
  | .Sb rs1 rs2 imm => [.Register rs2, .Address rs1 imm]
  | .Sd rs1 rs2 imm => [.Register rs2, .Address rs1 imm]
  | .Sh rs1 rs2 imm => [.Register rs2, .Address rs1 imm]
  | .Sw rs1 rs2 imm => [.Register rs2, .Address rs1 imm]
  | .Sll _ _ _ => []
  | .Slli _ _ _ => []
  | .Slt _ _ _ => []
  | .Slti _ _ _ => []
  | .Sltiu _ _ _ => []
  | .Sltu _ _ _ => []
  | .Sra _ _ _ => []
  | .Srai _ _ _ => []
  | .Sret => []
  | .Srl _ _ _ => []
  | .Srli _ _ _ => []
  | .Sub rd rs1 rs2 => [.Register rd, .Register rs1, .Register rs2]
  | .Uret => []
  | .Wfi => []
  | .Xor rd rs1 rs2 => [.Register rd, .Register rs1, .Register rs2]
  | .Xori rd rs1 imm12 => [.Register rd, .Register rs1, .SignedImm imm12]

/-- Rust `i32 as u8`: keep the low 8 bits of the two's-complement coding. -/
def i32_as_u8 (x : Int) : Nat := (x % 2 ^ 8).toNat

/-- Rust `i32 as u32`: the two's-complement coding of `x` as unsigned. -/
def i32_as_u32 (x : Int) : Nat := (x % 2 ^ 32).toNat

/-- The decoder's I-type immediate, `let i_imm` in src/decode.rs:
`w.bits(31, 20).sign_ext(11)`. -/
def i_imm (w : Nat) : Option Int := sign_ext (bits w 31 20) 11

/-- The decoder's S-type immediate, `let s_imm` in src/decode.rs:
`((w.bits(31, 25) << 5) | w.bits(11, 7)).sign_ext(11)`. -/
def s_imm (w : Nat) : Option Int :=
  sign_ext ((bits w 31 25 <<< 5) ||| bits w 11 7) 11

/-- The raw (pre-sign-extension) B-type immediate field composition from
src/decode.rs. -/
def b_imm_raw (w : Nat) : Nat :=
  (bit w 31 <<< 12) ||| (bit w 7 <<< 11) ||| (bits w 30 25 <<< 5)
    ||| (bits w 11 8 <<< 1)

/-- The decoder's B-type immediate, `let b_imm` in src/decode.rs. -/
def b_imm (w : Nat) : Option Int := sign_ext (b_imm_raw w) 12

/-- The decoder's U-type immediate, `let u_imm` in src/decode.rs:
`w.bits(31, 12)`, kept unsigned and unshifted. -/
def u_imm (w : Nat) : Nat := bits w 31 12

/-- The raw (pre-sign-extension) J-type immediate field composition from
src/decode.rs. -/
def j_imm_raw (w : Nat) : Nat :=
  (bit w 31 <<< 20) ||| (bits w 19 12 <<< 12) ||| (bit w 20 <<< 11)
    ||| (bits w 30 21 <<< 1)

/-- The decoder's J-type immediate, `let j_imm` in src/decode.rs. -/
def j_imm (w : Nat) : Option Int := sign_ext (j_imm_raw w) 20

/-- The decoder's `let opcode = w.bits(6, 0)` binding, as a named
function so the dispatch can be stated without local binders. -/
def opcode_of (w : Nat) : Nat := bits w 6 0

/-- The decoder's `let funct3 = w.bits(14, 12)` binding. -/
def funct3_of (w : Nat) : Nat := bits w 14 12

/-- The decoder's `let funct7 = w.bits(31, 25)` binding. -/
def funct7_of (w : Nat) : Nat := bits w 31 25

/-- The decoder's `let funct12 = w.bits(31, 20)` binding (`csr` is the
same value zero-extended through `u16`, an identity on 12-bit values). -/
def funct12_of (w : Nat) : Nat := bits w 31 20

/-- The decoder's `let rd = rd_idx.try_into().unwrap_or(Reg::Zero)` with
`rd_idx = w.bits(11, 7) as u8` (the `u8` cast is the identity on 5-bit
values). -/
def rd_of (w : Nat) : Reg := (Reg.tryFrom (bits w 11 7)).getD Reg.Zero

/-- The decoder's `rs2` binding, from `rs2_idx = w.bits(24, 20)`. -/
def rs2_of (w : Nat) : Reg := (Reg.tryFrom (bits w 24 20)).getD Reg.Zero

/-- The decoder's `rs1` binding, from `rs1_idx = w.bits(19, 15)`. -/
def rs1_of (w : Nat) : Reg := (Reg.tryFrom (bits w 19 15)).getD Reg.Zero

/-- The dispatch `match` block of `decode_opcode` from src/decode.rs,
factored as a named function of the word and the four sign-extended
immediates.  Rust's `match` with literal `(opcode, funct3)` patterns and
`if` guards tries the arms top to bottom, so it is faithfully rendered as
a first-match chain of conditionals in source order.  The literal `0`
operands are the source's placeholder bindings `let imm5: u8 = 0` and
`let imm12: i32 = 0` (with `imm12 as u32` written `i32_as_u32 0`). -/
def dispatch (w : Nat) (iImm sImm bImm jImm : Int) : Option Instr :=
  if w = 0 then some Instr.Illegal
  else if opcode_of w = 0x03 ∧ funct3_of w = 0x0 then
    some (Instr.Lb (rd_of w) (rs1_of w) iImm)
  else if opcode_of w = 0x03 ∧ funct3_of w = 0x1 then
    some (Instr.Lh (rd_of w) (rs1_of w) iImm)
  else if opcode_of w = 0x03 ∧ funct3_of w = 0x2 then
    some (Instr.Lw (rd_of w) (rs1_of w) iImm)
  else if opcode_of w = 0x03 ∧ funct3_of w = 0x3 then
    some (Instr.Ld (rd_of w) (rs1_of w) iImm)
  else if opcode_of w = 0x03 ∧ funct3_of w = 0x4 then
    some (Instr.Lbu (rd_of w) (rs1_of w) (i32_as_u32 iImm))
  else if opcode_of w = 0x03 ∧ funct3_of w = 0x5 then
    some (Instr.Lhu (rd_of w) (rs1_of w) (i32_as_u32 iImm))
  else if opcode_of w = 0x03 ∧ funct3_of w = 0x6 then
    some (Instr.Lwu (rd_of w) (rs1_of w) (i32_as_u32 iImm))
  else if opcode_of w = 0x0f ∧ funct3_of w = 0x0 then
    some (Instr.Fence (rd_of w) (rs1_of w)
      (bits w 27 24) (bits w 23 20) (bits w 31 28))
  else if opcode_of w = 0x0f ∧ funct3_of w = 0x1 then
    some (Instr.FenceI (rd_of w) (rs1_of w) 0)
  else if opcode_of w = 0x13 ∧ funct3_of w = 0x0 then
    some (Instr.Addi (rd_of w) (rs1_of w) iImm)
  else if opcode_of w = 0x13 ∧ funct3_of w = 0x1 ∧ funct7_of w = 0x00 then
    some (Instr.Slli (rd_of w) (rs1_of w) (i32_as_u8 iImm))
  else if opcode_of w = 0x13 ∧ funct3_of w = 0x2 then
    some (Instr.Slti (rd_of w) (rs1_of w) 0)
  else if opcode_of w = 0x13 ∧ funct3_of w = 0x3 then
    some (Instr.Sltiu (rd_of w) (rs1_of w) 0)
  else if opcode_of w = 0x13 ∧ funct3_of w = 0x4 then
    some (Instr.Xori (rd_of w) (rs1_of w) 0)
  else if opcode_of w = 0x13 ∧ funct3_of w = 0x5 ∧ funct7_of w = 0x00 then
    some (Instr.Srli (rd_of w) (rs1_of w) 0)
  else if opcode_of w = 0x13 ∧ funct3_of w = 0x5 ∧ funct7_of w = 0x20 then
    some (Instr.Srai (rd_of w) (rs1_of w) 0)
  else if opcode_of w = 0x13 ∧ funct3_of w = 0x6 then
    some (Instr.Ori (rd_of w) (rs1_of w) 0)
  else if opcode_of w = 0x13 ∧ funct3_of w = 0x7 then
    some (Instr.Andi (rd_of w) (rs1_of w) iImm)
  else if opcode_of w = 0x17 then some (Instr.Auipc (rd_of w) (u_imm w))
  else if opcode_of w = 0x23 ∧ funct3_of w = 0x0 then
    some (Instr.Sb (rs1_of w) (rs2_of w) sImm)
  else if opcode_of w = 0x23 ∧ funct3_of w = 0x1 then
    some (Instr.Sh (rs1_of w) (rs2_of w) sImm)
  else if opcode_of w = 0x23 ∧ funct3_of w = 0x2 then
    some (Instr.Sw (rs1_of w) (rs2_of w) sImm)
  else if opcode_of w = 0x23 ∧ funct3_of w = 0x3 then
    some (Instr.Sd (rs1_of w) (rs2_of w) sImm)
  else if opcode_of w = 0x33 ∧ funct3_of w = 0x0 ∧ funct7_of w = 0x00 then
    some (Instr.Add (rd_of w) (rs1_of w) (rs2_of w))
  else if opcode_of w = 0x33 ∧ funct3_of w = 0x0 ∧ funct7_of w = 0x20 then
    some (Instr.Sub (rd_of w) (rs1_of w) (rs2_of w))
  else if opcode_of w = 0x33 ∧ funct3_of w = 0x1 then
    some (Instr.Sll (rd_of w) (rs1_of w) (rs2_of w))
  else if opcode_of w = 0x33 ∧ funct3_of w = 0x2 then
    some (Instr.Slt (rd_of w) (rs1_of w) (rs2_of w))
  else if opcode_of w = 0x33 ∧ funct3_of w = 0x3 then
    some (Instr.Sltu (rd_of w) (rs1_of w) (rs2_of w))
  else if opcode_of w = 0x33 ∧ funct3_of w = 0x4 then
    some (Instr.Xor (rd_of w) (rs1_of w) (rs2_of w))
  else if opcode_of w = 0x33 ∧ funct3_of w = 0x5 ∧ funct7_of w = 0x00 then
    some (Instr.Srl (rd_of w) (rs1_of w) (rs2_of w))
  else if opcode_of w = 0x33 ∧ funct3_of w = 0x5 ∧ funct7_of w = 0x20 then
    some (Instr.Sra (rd_of w) (rs1_of w) (rs2_of w))
  else if opcode_of w = 0x33 ∧ funct3_of w = 0x6 then
    some (Instr.Or (rd_of w) (rs1_of w) (rs2_of w))
  else if opcode_of w = 0x33 ∧ funct3_of w = 0x7 then
    some (Instr.And (rd_of w) (rs1_of w) (rs2_of w))
  else if opcode_of w = 0x37 then some (Instr.Lui (rd_of w) (u_imm w))
  else if opcode_of w = 0x63 ∧ funct3_of w = 0x0 then
    some (Instr.Beq (rs1_of w) (rs2_of w) bImm)
  else if opcode_of w = 0x63 ∧ funct3_of w = 0x1 then
    some (Instr.Bne (rs1_of w) (rs2_of w) bImm)
  else if opcode_of w = 0x63 ∧ funct3_of w = 0x4 then
    some (Instr.Blt (rs1_of w) (rs2_of w) bImm)
  else if opcode_of w = 0x63 ∧ funct3_of w = 0x5 then
    some (Instr.Bge (rs1_of w) (rs2_of w) bImm)
  else if opcode_of w = 0x63 ∧ funct3_of w = 0x6 then
    some (Instr.Bltu (rs1_of w) (rs2_of w) bImm)
  else if opcode_of w = 0x63 ∧ funct3_of w = 0x7 then
    some (Instr.Bgeu (rs1_of w) (rs2_of w) bImm)
  else if opcode_of w = 0x67 ∧ funct3_of w = 0x0 then
    some (Instr.Jalr (rd_of w) (rs1_of w) iImm)
  else if opcode_of w = 0x6f then some (Instr.Jal (rd_of w) jImm)
  else if opcode_of w = 0x73 ∧ funct3_of w = 0x0 ∧ funct7_of w = 0x0 then
    some (Instr.Ecall (rd_of w) (rs1_of w))
  else if opcode_of w = 0x73 ∧ funct3_of w = 0x0 ∧ funct7_of w = 0x1 then
    some (Instr.Ebreak (rd_of w) (rs1_of w))
  else if opcode_of w = 0x73 ∧ funct3_of w = 0x0 ∧ funct12_of w = 0x302 then
    some Instr.Wfi
  else if opcode_of w = 0x73 ∧ funct3_of w = 0x0 ∧ funct12_of w = 0x105 then
    some Instr.Mret
  else if opcode_of w = 0x73 ∧ funct3_of w = 0x1 then
    some (Instr.Csrrw (rs1_of w) (i32_as_u32 0))
  else if opcode_of w = 0x73 ∧ funct3_of w = 0x2 then
    some (Instr.Csrrs (rd_of w) (rs1_of w) (i32_as_u32 0))
  else if opcode_of w = 0x73 ∧ funct3_of w = 0x3 then
    some (Instr.Csrrc (rs1_of w))
  else if opcode_of w = 0x73 ∧ funct3_of w = 0x5 then
    some (Instr.Csrrwi (rd_of w))
  else if opcode_of w = 0x73 ∧ funct3_of w = 0x6 then
    some (Instr.Csrrsi 0 (i32_as_u32 0))
  else if opcode_of w = 0x73 ∧ funct3_of w = 0x7 then
    some (Instr.Csrrci 0 (i32_as_u32 0))
  else none

/-- Embeds `decode_opcode` from src/decode.rs.

The outer `Option` models panic-freedom: the four sign-extended immediates
are computed unconditionally before dispatch (as in the source), and each
could in principle panic through `sign_ext`; the `bind` chain propagates
such a panic as `none`.  The inner `Option Instr` is the source's return
value, produced by `dispatch`. -/
def decode_opcode (w : Nat) : Option (Option Instr) :=
  (i_imm w).bind fun iImm =>
  (s_imm w).bind fun sImm =>
  (b_imm w).bind fun bImm =>
  (j_imm w).bind fun jImm =>
  some (dispatch w iImm sImm bImm jImm)

/-- The dispatch table of `decode_opcode`, read off arm for arm from the
`match` in src/decode.rs: a word hits the table when it is the special
all-zero word or when its `(opcode, funct3[, funct7/funct12])` fields match
one of the arms (including the arm's guard, where present). -/
def TableHit (w : Nat) : Prop :=
  w = 0
  ∨ (opcode_of w = 0x03 ∧ funct3_of w = 0x0)
  ∨ (opcode_of w = 0x03 ∧ funct3_of w = 0x1)
  ∨ (opcode_of w = 0x03 ∧ funct3_of w = 0x2)
  ∨ (opcode_of w = 0x03 ∧ funct3_of w = 0x3)
  ∨ (opcode_of w = 0x03 ∧ funct3_of w = 0x4)
  ∨ (opcode_of w = 0x03 ∧ funct3_of w = 0x5)
  ∨ (opcode_of w = 0x03 ∧ funct3_of w = 0x6)
  ∨ (opcode_of w = 0x0f ∧ funct3_of w = 0x0)
  ∨ (opcode_of w = 0x0f ∧ funct3_of w = 0x1)
  ∨ (opcode_of w = 0x13 ∧ funct3_of w = 0x0)
  ∨ (opcode_of w = 0x13 ∧ funct3_of w = 0x1 ∧ funct7_of w = 0x00)
  ∨ (opcode_of w = 0x13 ∧ funct3_of w = 0x2)
  ∨ (opcode_of w = 0x13 ∧ funct3_of w = 0x3)
  ∨ (opcode_of w = 0x13 ∧ funct3_of w = 0x4)
  ∨ (opcode_of w = 0x13 ∧ funct3_of w = 0x5 ∧ funct7_of w = 0x00)
  ∨ (opcode_of w = 0x13 ∧ funct3_of w = 0x5 ∧ funct7_of w = 0x20)
  ∨ (opcode_of w = 0x13 ∧ funct3_of w = 0x6)
  ∨ (opcode_of w = 0x13 ∧ funct3_of w = 0x7)
  ∨ opcode_of w = 0x17
  ∨ (opcode_of w = 0x23 ∧ funct3_of w = 0x0)
  ∨ (opcode_of w = 0x23 ∧ funct3_of w = 0x1)
  ∨ (opcode_of w = 0x23 ∧ funct3_of w = 0x2)
  ∨ (opcode_of w = 0x23 ∧ funct3_of w = 0x3)
  ∨ (opcode_of w = 0x33 ∧ funct3_of w = 0x0 ∧ funct7_of w = 0x00)
  ∨ (opcode_of w = 0x33 ∧ funct3_of w = 0x0 ∧ funct7_of w = 0x20)
  ∨ (opcode_of w = 0x33 ∧ funct3_of w = 0x1)
  ∨ (opcode_of w = 0x33 ∧ funct3_of w = 0x2)
  ∨ (opcode_of w = 0x33 ∧ funct3_of w = 0x3)
  ∨ (opcode_of w = 0x33 ∧ funct3_of w = 0x4)
  ∨ (opcode_of w = 0x33 ∧ funct3_of w = 0x5 ∧ funct7_of w = 0x00)
  ∨ (opcode_of w = 0x33 ∧ funct3_of w = 0x5 ∧ funct7_of w = 0x20)
  ∨ (opcode_of w = 0x33 ∧ funct3_of w = 0x6)
  ∨ (opcode_of w = 0x33 ∧ funct3_of w = 0x7)
  ∨ opcode_of w = 0x37
  ∨ (opcode_of w = 0x63 ∧ funct3_of w = 0x0)
  ∨ (opcode_of w = 0x63 ∧ funct3_of w = 0x1)
  ∨ (opcode_of w = 0x63 ∧ funct3_of w = 0x4)
  ∨ (opcode_of w = 0x63 ∧ funct3_of w = 0x5)
  ∨ (opcode_of w = 0x63 ∧ funct3_of w = 0x6)
  ∨ (opcode_of w = 0x63 ∧ funct3_of w = 0x7)
  ∨ (opcode_of w = 0x67 ∧ funct3_of w = 0x0)
  ∨ opcode_of w = 0x6f
  ∨ (opcode_of w = 0x73 ∧ funct3_of w = 0x0 ∧ funct7_of w = 0x0)
  ∨ (opcode_of w = 0x73 ∧ funct3_of w = 0x0 ∧ funct7_of w = 0x1)
  ∨ (opcode_of w = 0x73 ∧ funct3_of w = 0x0 ∧ funct12_of w = 0x302)
  ∨ (opcode_of w = 0x73 ∧ funct3_of w = 0x0 ∧ funct12_of w = 0x105)
  ∨ (opcode_of w = 0x73 ∧ funct3_of w = 0x1)
  ∨ (opcode_of w = 0x73 ∧ funct3_of w = 0x2)
  ∨ (opcode_of w = 0x73 ∧ funct3_of w = 0x3)
  ∨ (opcode_of w = 0x73 ∧ funct3_of w = 0x5)
  ∨ (opcode_of w = 0x73 ∧ funct3_of w = 0x6)
  ∨ (opcode_of w = 0x73 ∧ funct3_of w = 0x7)

/-- A branch offset obeys its ISA width: even, 13-bit signed. -/
def branchImmOk (imm : Int) : Bool :=
  decide (imm % 2 = 0 ∧ -4096 ≤ imm ∧ imm ≤ 4094)

/-- A `jal` offset obeys its ISA width: even, 21-bit signed. -/
def jalImmOk (imm : Int) : Bool :=
  decide (imm % 2 = 0 ∧ -1048576 ≤ imm ∧ imm ≤ 1048574)

/-- Every control-flow offset a decode result can carry obeys its ISA
width; any other result is vacuously fine. -/
def ctrlFlowImmOk : Option (Option Instr) → Bool
  | some (some (Instr.Beq _ _ imm)) => branchImmOk imm
  | some (some (Instr.Bne _ _ imm)) => branchImmOk imm
  | some (some (Instr.Blt _ _ imm)) => branchImmOk imm
  | some (some (Instr.Bge _ _ imm)) => branchImmOk imm
  | some (some (Instr.Bltu _ _ imm)) => branchImmOk imm
  | some (some (Instr.Bgeu _ _ imm)) => branchImmOk imm
  | some (some (Instr.Jal _ imm)) => jalImmOk imm
  | _ => true

/-- Embeds the fields of `goblin`'s section header that `parse_elf` in
src/lib.rs reads: `sh_name`, `sh_offset`, `sh_size`. -/
structure SectionHeader where
  sh_name : Nat
  sh_offset : Nat
  sh_size : Nat

/-- Embeds the part of `goblin::elf::Elf` that `parse_elf` consumes: the
section header list and the section-header string table, modelled as the
(external collaborator's) total lookup from name offset to name. -/
structure Elf where
  section_headers : List SectionHeader
  shdr_strtab : Nat → String

/-- Embeds `u32::from_le_bytes([w[0], w[1], w[2], w[3]])` composed with
`chunks_exact(4)`: split the byte list into little-endian 32-bit words,
silently dropping a trailing remainder of fewer than 4 bytes, exactly as
`chunks_exact` does. -/
def le_words : List Nat → List Nat
  | b0 :: b1 :: b2 :: b3 :: rest =>
      (b0 + 2 ^ 8 * b1 + 2 ^ 16 * b2 + 2 ^ 24 * b3) :: le_words rest
  | _ => []

/-- Embeds `parse_elf` from src/lib.rs.  The source scans the section
headers in order and processes the first one whose name is `.text`:
`start = sh_offset`, `end = start + sh_size`, slices `buffer[start..end]`
and collects `chunks_exact(4)` little-endian words.  `none` models a
panic: either the out-of-bounds slice, or the final
`panic!("No '.text' section in elf")` when no section is named `.text`.
The `Ok` path never constructs an error value, so the `Result` layer
carries no information beyond `some`. -/
def parse_elf (elf : Elf) (buffer : List Nat) : Option (List Nat) :=
  match elf.section_headers.find?
      (fun s => elf.shdr_strtab s.sh_name == ".text") with
  | some s =>
      if s.sh_offset + s.sh_size ≤ buffer.length then
        some (le_words ((buffer.drop s.sh_offset).take s.sh_size))
      else
        none
  | none => none

theorem lor_eq_add (k a b : Nat) (ha : 2 ^ k ∣ a) (hb : b < 2 ^ k) :
    a ||| b = a + b := by
  obtain ⟨c, rfl⟩ := ha
  exact (Nat.mul_add_lt_is_or hb c).symm

theorem mask_mod (k : Nat) (hk : k ≤ 32) :
    ((2 ^ 32 - 1) <<< k) % 2 ^ 32 = 2 ^ 32 - 2 ^ k := by
  rw [Nat.shiftLeft_eq]
  have e1 : (0 : Nat) < 2 ^ k := Nat.two_pow_pos k
  have e2 : (2 : Nat) ^ k ≤ 2 ^ 32 := Nat.pow_le_pow_right (by omega) hk
  have h1 : (2 ^ 32 - 1) * 2 ^ k = 2 ^ 32 * (2 ^ k - 1) + (2 ^ 32 - 2 ^ k) := by
    zify [e1, e2, (by omega : (1 : Nat) ≤ 2 ^ 32)]
    ring
  rw [h1, Nat.mul_add_mod]
  exact Nat.mod_eq_of_lt (by omega)

theorem bit_eq_div_mod (w idx : Nat) : bit w idx = w / 2 ^ idx % 2 := by
  rw [bit, Nat.and_one_is_mod, Nat.shiftRight_eq_div_pow]

theorem bits_eq_div_mod (w hi lo : Nat) (hlo : lo ≤ hi) (hhi : hi ≤ 31) :
    bits w hi lo = w / 2 ^ lo % 2 ^ (hi - lo + 1) := by
  have hmask : (2 ^ 32 - 1 : Nat) >>> (31 - hi) = 2 ^ (hi + 1) - 1 := by
    rw [Nat.shiftRight_eq_div_pow]
    have ha : (0 : Nat) < 2 ^ (31 - hi) := Nat.two_pow_pos _
    have hb : (0 : Nat) < 2 ^ (hi + 1) := Nat.two_pow_pos _
    have h1 : (2 : Nat) ^ (31 - hi) * 2 ^ (hi + 1) = 2 ^ 32 := by
      rw [← pow_add]; congr 1; omega
    have hA32 : (2 : Nat) ^ (31 - hi) ≤ 2 ^ 32 := Nat.pow_le_pow_right (by omega) (by omega)
    have h2 : (2 : Nat) ^ 32 - 1
        = 2 ^ (31 - hi) * (2 ^ (hi + 1) - 1) + (2 ^ (31 - hi) - 1) := by
      rw [Nat.mul_sub_one, h1]
      omega
    rw [h2, Nat.mul_add_div ha, Nat.div_eq_of_lt (by omega), Nat.add_zero]
  rw [bits, hmask, Nat.and_pow_two_sub_one_eq_mod, Nat.shiftRight_eq_div_pow]
  have h3 : (2 : Nat) ^ (hi + 1) = 2 ^ lo * 2 ^ (hi - lo + 1) := by
    rw [← pow_add]; congr 1; omega
  rw [h3, Nat.mod_mul_right_div_self]

theorem bits_lt (w hi lo : Nat) (hlo : lo ≤ hi) (hhi : hi ≤ 31) :
    bits w hi lo < 2 ^ (hi - lo + 1) := by
  rw [bits_eq_div_mod w hi lo hlo hhi]
  exact Nat.mod_lt _ (Nat.two_pow_pos _)

theorem bit_le_one (w idx : Nat) : bit w idx ≤ 1 := by
  rw [bit_eq_div_mod]; omega

theorem toI32_of_lt (x : Nat) (h : x < 2 ^ 31) : toI32 x = x := by
  rw [toI32, if_pos h]

theorem toI32_of_ge (x : Nat) (h : 2 ^ 31 ≤ x) : toI32 x = (x : Int) - 2 ^ 32 := by
  rw [toI32, if_neg (by omega)]

/-- The exact value `sign_ext` returns on its panic-free domain: the input
reinterpreted as a signed two's-complement `hi + 1`-bit value. -/
theorem sign_ext_spec (v hi : Nat) (hhi : hi ≤ 31) (hv : v < 2 ^ (hi + 1))
    (hok : hi ≤ 30 ∨ v < 2 ^ 31) :
    sign_ext v hi
      = some (if v < 2 ^ hi then (v : Int) else (v : Int) - 2 ^ (hi + 1)) := by
  have hbit : bit v hi = v / 2 ^ hi % 2 := bit_eq_div_mod v hi
  by_cases hcase : v < 2 ^ hi
  · have h0 : bit v hi = 0 := by rw [hbit, Nat.div_eq_of_lt hcase]
    rw [sign_ext, if_pos h0, toI32_of_lt v
      (lt_of_lt_of_le hcase (Nat.pow_le_pow_right (by omega) hhi)), if_pos hcase]
  · have hge : 2 ^ hi ≤ v := le_of_not_lt hcase
    have h30 : hi ≤ 30 := by
      rcases hok with h | h
      · exact h
      · by_contra hgt
        have h31 : hi = 31 := by omega
        rw [h31] at hge; omega
    have hdiv : v / 2 ^ hi = 1 := by
      have h2 : v < 2 ^ hi * 2 := by rw [pow_succ] at hv; omega
      exact Nat.div_eq_of_lt_le (by omega) (by omega)
    have h0 : ¬ bit v hi = 0 := by rw [hbit, hdiv]; omega
    have hmaskshl : shl_u32 (2 ^ 32 - 1) (hi + 1)
        = some (2 ^ 32 - 2 ^ (hi + 1)) := by
      rw [shl_u32, if_pos (by omega), mask_mod (hi + 1) (by omega)]
    have hdvd : 2 ^ (hi + 1) ∣ 2 ^ 32 - 2 ^ (hi + 1) :=
      Nat.dvd_sub' (pow_dvd_pow 2 (by omega)) dvd_rfl
    have hor : v ||| (2 ^ 32 - 2 ^ (hi + 1)) = 2 ^ 32 - 2 ^ (hi + 1) + v := by
      rw [Nat.or_comm]; exact lor_eq_add (hi + 1) _ v hdvd hv
    have hle : (2 : Nat) ^ (hi + 1) ≤ 2 ^ 32 := Nat.pow_le_pow_right (by omega) (by omega)
    have h31 : (2 : Nat) ^ (hi + 1) ≤ 2 ^ 31 := Nat.pow_le_pow_right (by omega) (by omega)
    rw [sign_ext, if_neg h0, hmaskshl]
    show some (toI32 (v ||| (2 ^ 32 - 2 ^ (hi + 1))))
        = some (if v < 2 ^ hi then (v : Int) else (v : Int) - 2 ^ (hi + 1))
    rw [hor, toI32_of_ge _ (by omega), if_neg hcase,
      Nat.cast_add, Nat.cast_sub hle, Nat.cast_pow, Nat.cast_pow]
    push_cast
    ring

theorem sign_ext_total (a hi : Nat) (h : hi < 31) : ∃ z, sign_ext a hi = some z := by
  rw [sign_ext]
  by_cases hb : bit a hi = 0
  · rw [if_pos hb]; exact ⟨_, rfl⟩
  · rw [if_neg hb]
    rw [shl_u32, if_pos (by omega)]
    exact ⟨_, rfl⟩

/-- Claim C8, amended: for `hi ≤ 31` and `v` representable in `hi + 1`
bits, as long as `hi ≤ 30` or bit 31 of `v` is clear, `sign_ext`
terminates without panic and returns `v` reinterpreted as a signed
two's-complement `hi + 1`-bit value; the excluded case `hi = 31` with bit
31 set is the shift-overflow panic exhibited by the counterexample. -/
theorem sign_ext_round_trip (hi v : Nat) (hhi : hi ≤ 31) (hv : v < 2 ^ (hi + 1))
    (hok : hi ≤ 30 ∨ v < 2 ^ 31) :
    sign_ext v hi
      = some (if v < 2 ^ hi then (v : Int) else (v : Int) - 2 ^ (hi + 1)) :=
  sign_ext_spec v hi hhi hv hok

/-- Witness for `sign_ext_round_trip` at `hi = 11`, `v = 0xFFF` (which
reinterprets to `-1`). -/
theorem sign_ext_round_trip_witness :
    sign_ext 4095 11
      = some (if 4095 < 2 ^ 11 then ((4095 : Nat) : Int)
          else ((4095 : Nat) : Int) - 2 ^ (11 + 1)) :=
  sign_ext_round_trip 11 4095 (by decide) (by decide) (Or.inl (by decide))

/-- Claim C9: `bits w hi lo` equals the closed-form arithmetic definition
`w / 2 ^ lo % 2 ^ (hi - lo + 1)` for `0 ≤ lo ≤ hi ≤ 31` (including
`hi = lo` and the full range), and `bit w idx` equals
`w / 2 ^ idx % 2` for `idx ≤ 31`. -/
theorem bits_bit_closed_form (w hi lo idx : Nat) (hw : w < 2 ^ 32)
    (hlo : lo ≤ hi) (hhi : hi ≤ 31) (hidx : idx ≤ 31) :
    bits w hi lo = w / 2 ^ lo % 2 ^ (hi - lo + 1)
    ∧ bit w idx = w / 2 ^ idx % 2 :=
  ⟨bits_eq_div_mod w hi lo hlo hhi, bit_eq_div_mod w idx⟩

/-- Witness for `bits_bit_closed_form` at `w = 0xdead_beef` with the
byte-crossing range `(20, 5)` and `idx = 3`. -/
theorem bits_bit_closed_form_witness :
    bits 3735928559 20 5 = 3735928559 / 2 ^ 5 % 2 ^ (20 - 5 + 1)
    ∧ bit 3735928559 3 = 3735928559 / 2 ^ 3 % 2 :=
  bits_bit_closed_form 3735928559 20 5 3 (by decide) (by decide) (by decide)
    (by decide)

/-- Claim C5: `decode_opcode 0x00000000` returns `Some Illegal` — the
all-zero word is detected as the distinguished `Illegal` variant before
generic dispatch (and no panic occurs). -/
theorem decode_opcode_zero_illegal :
    decode_opcode 0 = some (some Instr.Illegal) := rfl

/-- Claim C2, behaviour at the failing inputs: `slti ra, ra, 1`
(`0x0010A093`) decodes with the placeholder immediate `0` instead of the
I-immediate `1`, and `srli ra, ra, 1` (`0x0010D093`) decodes with the
placeholder shift amount `0` instead of `bits(24,20) = 1`. -/
theorem decode_alu_imm_stub :
    decode_opcode 0x0010A093 = some (some (Instr.Slti Reg.Ra Reg.Ra 0))
    ∧ decode_opcode 0x0010D093 = some (some (Instr.Srli Reg.Ra Reg.Ra 0)) :=
  ⟨rfl, rfl⟩

/-- Claim C3, behaviour at the SYSTEM words: `ecall` (`0x00000073`)
decodes correctly, but `ebreak` (`0x00100073`) also falls into the
`funct7 == 0` Ecall arm, and the `wfi`/`mret` words decode to each other
because the source guards `funct12 == 0x302 => Wfi` and
`funct12 == 0x105 => Mret` are swapped relative to the ISA and to the
repository's own `check_wfi`/`check_mret` tests. -/
theorem decode_system_family :
    decode_opcode 0x00000073 = some (some (Instr.Ecall Reg.Zero Reg.Zero))
    ∧ decode_opcode 0x00100073 = some (some (Instr.Ecall Reg.Zero Reg.Zero))
    ∧ decode_opcode 0x10500073 = some (some Instr.Mret)
    ∧ decode_opcode 0x30200073 = some (some Instr.Wfi) :=
  ⟨rfl, rfl, rfl, rfl⟩

/-- Claim C4, behaviour at the failing inputs: `csrw mtvec, t0`
(`0x30529073`, CSR address `0x305`) decodes to `Csrrw` carrying the
placeholder `imm12 = 0` instead of the CSR address, and
`csrr a0, mcause` (`0x34202573`, CSR address `0x342`) decodes to `Csrrs`
carrying the placeholder `imm12 = 0` instead of the CSR address. -/
theorem decode_csr_stub :
    decode_opcode 0x30529073 = some (some (Instr.Csrrw Reg.T0 0))
    ∧ decode_opcode 0x34202573 = some (some (Instr.Csrrs Reg.A0 Reg.Zero 0)) :=
  ⟨rfl, rfl⟩

/-- Claim C6, counterexample: for the unsigned load `Lbu`, `args` returns
a single `Register` argument, not the claimed
`[Register rd, Address {base, offset}]` pair. -/
theorem args_lbu_counterexample :
    Instr.args (Instr.Lbu Reg.A0 Reg.A1 4) = [Arg.Register Reg.A0]
    ∧ Instr.args (Instr.Lbu Reg.A0 Reg.A1 4)
        ≠ [Arg.Register Reg.A0, Arg.Address Reg.A1 4] := by
  decide

/-- Claim C6, amended: the sign-extending loads `Lb`/`Lh`/`Lw`/`Ld`
render as `rd` followed by `Address {base: rs1, offset: imm}`, while the
zero-extending loads `Lbu`/`Lhu`/`Lwu` render only `rd`, dropping the
address operand. -/
theorem args_loads (rd rs1 : Reg) (imm : Int) (immu : Nat) :
    Instr.args (Instr.Lb rd rs1 imm) = [Arg.Register rd, Arg.Address rs1 imm]
    ∧ Instr.args (Instr.Lh rd rs1 imm) = [Arg.Register rd, Arg.Address rs1 imm]
    ∧ Instr.args (Instr.Lw rd rs1 imm) = [Arg.Register rd, Arg.Address rs1 imm]
    ∧ Instr.args (Instr.Ld rd rs1 imm) = [Arg.Register rd, Arg.Address rs1 imm]
    ∧ Instr.args (Instr.Lbu rd rs1 immu) = [Arg.Register rd]
    ∧ Instr.args (Instr.Lhu rd rs1 immu) = [Arg.Register rd]
    ∧ Instr.args (Instr.Lwu rd rs1 immu) = [Arg.Register rd] :=
  ⟨rfl, rfl, rfl, rfl, rfl, rfl, rfl⟩

/-- Claim C7, behaviour at the failing inputs: with no `.text` section
`parse_elf` panics (modelled `none`) instead of returning a typed error,
and with a 5-byte `.text` section it silently returns the single word of
the first 4 bytes, dropping the trailing byte. -/
theorem parse_elf_panics_and_truncates :
    parse_elf ⟨[], fun _ => ""⟩ [] = none
    ∧ parse_elf ⟨[⟨0, 0, 5⟩], fun _ => ".text"⟩ [0x13, 0x00, 0x00, 0x00, 0x13]
        = some [0x13] := by
  decide

theorem b_imm_raw_eq (w : Nat) :
    b_imm_raw w
      = bit w 31 * 4096 + bit w 7 * 2048 + bits w 30 25 * 32 + bits w 11 8 * 2 := by
  have h31 := bit_le_one w 31
  have h7 := bit_le_one w 7
  have h25 : bits w 30 25 < 64 := by
    have h := bits_lt w 30 25 (by omega) (by omega); norm_num at h; exact h
  have h8 : bits w 11 8 < 16 := by
    have h := bits_lt w 11 8 (by omega) (by omega); norm_num at h; exact h
  rw [b_imm_raw, Nat.shiftLeft_eq, Nat.shiftLeft_eq, Nat.shiftLeft_eq,
    Nat.shiftLeft_eq]
  rw [lor_eq_add 12 (bit w 31 * 2 ^ 12) (bit w 7 * 2 ^ 11)
    ⟨bit w 31, by ring⟩ (by omega)]
  rw [lor_eq_add 11 _ (bits w 30 25 * 2 ^ 5)
    ⟨2 * bit w 31 + bit w 7, by ring⟩ (by omega)]
  rw [lor_eq_add 5 _ (bits w 11 8 * 2 ^ 1)
    ⟨128 * bit w 31 + 64 * bit w 7 + bits w 30 25, by ring⟩ (by omega)]

theorem b_imm_raw_facts (w : Nat) : b_imm_raw w < 8192 ∧ b_imm_raw w % 2 = 0 := by
  have h31 := bit_le_one w 31
  have h7 := bit_le_one w 7
  have h25 : bits w 30 25 < 64 := by
    have h := bits_lt w 30 25 (by omega) (by omega); norm_num at h; exact h
  have h8 : bits w 11 8 < 16 := by
    have h := bits_lt w 11 8 (by omega) (by omega); norm_num at h; exact h
  rw [b_imm_raw_eq]
  omega

theorem j_imm_raw_eq (w : Nat) :
    j_imm_raw w
      = bit w 31 * 1048576 + bits w 19 12 * 4096 + bit w 20 * 2048
        + bits w 30 21 * 2 := by
  have h31 := bit_le_one w 31
  have h20 := bit_le_one w 20
  have h12 : bits w 19 12 < 256 := by
    have h := bits_lt w 19 12 (by omega) (by omega); norm_num at h; exact h
  have h21 : bits w 30 21 < 1024 := by
    have h := bits_lt w 30 21 (by omega) (by omega); norm_num at h; exact h
  rw [j_imm_raw, Nat.shiftLeft_eq, Nat.shiftLeft_eq, Nat.shiftLeft_eq,
    Nat.shiftLeft_eq]
  rw [lor_eq_add 20 (bit w 31 * 2 ^ 20) (bits w 19 12 * 2 ^ 12)
    ⟨bit w 31, by ring⟩ (by omega)]
  rw [lor_eq_add 12 _ (bit w 20 * 2 ^ 11)
    ⟨256 * bit w 31 + bits w 19 12, by ring⟩ (by omega)]
  rw [lor_eq_add 11 _ (bits w 30 21 * 2 ^ 1)
    ⟨512 * bit w 31 + 2 * bits w 19 12 + bit w 20, by ring⟩ (by omega)]

theorem j_imm_raw_facts (w : Nat) :
    j_imm_raw w < 2097152 ∧ j_imm_raw w % 2 = 0 := by
  have h31 := bit_le_one w 31
  have h20 := bit_le_one w 20
  have h12 : bits w 19 12 < 256 := by
    have h := bits_lt w 19 12 (by omega) (by omega); norm_num at h; exact h
  have h21 : bits w 30 21 < 1024 := by
    have h := bits_lt w 30 21 (by omega) (by omega); norm_num at h; exact h
  rw [j_imm_raw_eq]
  omega

theorem b_imm_bounds (w : Nat) (z : Int) (h : b_imm w = some z) :
    z % 2 = 0 ∧ -4096 ≤ z ∧ z ≤ 4094 := by
  obtain ⟨hlt, hev⟩ := b_imm_raw_facts w
  have hlt13 : b_imm_raw w < 2 ^ 13 := by omega
  rw [b_imm, sign_ext_spec (b_imm_raw w) 12 (by omega) hlt13 (Or.inl (by omega))]
    at h
  injection h with h
  subst h
  by_cases hc : b_imm_raw w < 2 ^ 12
  · rw [if_pos hc]
    refine ⟨?_, ?_, ?_⟩ <;> omega
  · rw [if_neg hc, show ((2 : Int) ^ (12 + 1)) = 8192 by norm_num]
    refine ⟨?_, ?_, ?_⟩ <;> omega

theorem j_imm_bounds (w : Nat) (z : Int) (h : j_imm w = some z) :
    z % 2 = 0 ∧ -1048576 ≤ z ∧ z ≤ 1048574 := by
  obtain ⟨hlt, hev⟩ := j_imm_raw_facts w
  have hlt21 : j_imm_raw w < 2 ^ 21 := by omega
  rw [j_imm, sign_ext_spec (j_imm_raw w) 20 (by omega) hlt21 (Or.inl (by omega))]
    at h
  injection h with h
  subst h
  by_cases hc : j_imm_raw w < 2 ^ 20
  · rw [if_pos hc]
    refine ⟨?_, ?_, ?_⟩ <;> omega
  · rw [if_neg hc, show ((2 : Int) ^ (20 + 1)) = 2097152 by norm_num]
    refine ⟨?_, ?_, ?_⟩ <;> omega

/-- Claim C8, counterexample: at `hi = 31` with bit 31 set the shift
`u32::MAX << 32` overflows, so `sign_ext` panics (modelled `none`) rather
than returning `2 ^ 31` reinterpreted as the signed value `-2 ^ 31`. -/
theorem sign_ext_bit31_counterexample :
    sign_ext 2147483648 31 = none
    ∧ sign_ext 2147483648 31 ≠ some (-2147483648) := by
  decide

/-- Claim C1: `decode_opcode` is total over the `u32` domain — every word
produces a result without a panic (`some r`), and whenever the word's
`(opcode, funct3[, funct7/funct12])` combination is absent from the
dispatch table the result is `None`. -/
theorem decode_opcode_total (w : Nat) (hw : w < 2 ^ 32) :
    ∃ r : Option Instr, decode_opcode w = some r ∧ (¬ TableHit w → r = none) := by
  obtain ⟨iv, hiv⟩ := sign_ext_total (bits w 31 20) 11 (by omega)
  obtain ⟨sv, hsv⟩ :=
    sign_ext_total ((bits w 31 25 <<< 5) ||| bits w 11 7) 11 (by omega)
  obtain ⟨bv, hbv⟩ := sign_ext_total (b_imm_raw w) 12 (by omega)
  obtain ⟨jv, hjv⟩ := sign_ext_total (j_imm_raw w) 20 (by omega)
  simp only [decode_opcode, i_imm, s_imm, b_imm, j_imm, hiv, hsv, hbv, hjv,
    Option.some_bind]
  refine ⟨_, rfl, fun hnot => ?_⟩
  unfold dispatch
  simp only [TableHit, not_or] at hnot
  obtain ⟨g1, g2, g3, g4, g5, g6, g7, g8, g9, g10, g11, g12, g13, g14, g15,
    g16, g17, g18, g19, g20, g21, g22, g23, g24, g25, g26, g27, g28, g29,
    g30, g31, g32, g33, g34, g35, g36, g37, g38, g39, g40, g41, g42, g43,
    g44, g45, g46, g47, g48, g49, g50, g51, g52, g53⟩ := hnot
  rw [if_neg g1, if_neg g2, if_neg g3, if_neg g4, if_neg g5, if_neg g6,
    if_neg g7, if_neg g8, if_neg g9, if_neg g10, if_neg g11, if_neg g12,
    if_neg g13, if_neg g14, if_neg g15, if_neg g16, if_neg g17, if_neg g18,
    if_neg g19, if_neg g20, if_neg g21, if_neg g22, if_neg g23, if_neg g24,
    if_neg g25, if_neg g26, if_neg g27, if_neg g28, if_neg g29, if_neg g30,
    if_neg g31, if_neg g32, if_neg g33, if_neg g34, if_neg g35, if_neg g36,
    if_neg g37, if_neg g38, if_neg g39, if_neg g40, if_neg g41, if_neg g42,
    if_neg g43, if_neg g44, if_neg g45, if_neg g46, if_neg g47, if_neg g48,
    if_neg g49, if_neg g50, if_neg g51, if_neg g52, if_neg g53]

/-- Witness for `decode_opcode_total` at the word `0x00000013`
(`addi zero, zero, 0`). -/
theorem decode_opcode_total_witness :
    ∃ r : Option Instr, decode_opcode 19 = some r ∧ (¬ TableHit 19 → r = none) :=
  decode_opcode_total 19 (by decide)

theorem ctrlFlowImmOk_ite (c : Prop) [Decidable c] (x y : Option Instr)
    (hx : ctrlFlowImmOk (some x) = true) (hy : ctrlFlowImmOk (some y) = true) :
    ctrlFlowImmOk (some (if c then x else y)) = true := by
  by_cases h : c
  · rw [if_pos h]; exact hx
  · rw [if_neg h]; exact hy

/-- Claim C10: every branch offset `decode_opcode` can produce is even and
lies in `[-4096, 4094]`, and every `jal` offset is even and lies in
`[-1048576, 1048574]` — each decoded control-flow offset has bit 0 clear
and fits its 13-bit or 21-bit signed width. -/
theorem decode_ctrl_flow_imm_bounds (w : Nat) (hw : w < 2 ^ 32) :
    ctrlFlowImmOk (decode_opcode w) = true := by
  obtain ⟨iv, hiv⟩ := sign_ext_total (bits w 31 20) 11 (by omega)
  obtain ⟨sv, hsv⟩ :=
    sign_ext_total ((bits w 31 25 <<< 5) ||| bits w 11 7) 11 (by omega)
  obtain ⟨bv, hbv⟩ := sign_ext_total (b_imm_raw w) 12 (by omega)
  obtain ⟨jv, hjv⟩ := sign_ext_total (j_imm_raw w) 20 (by omega)
  have hb := b_imm_bounds w bv hbv
  have hj := j_imm_bounds w jv hjv
  simp only [decode_opcode, i_imm, s_imm, b_imm, j_imm, hiv, hsv, hbv, hjv,
    Option.some_bind]
  unfold dispatch
  repeat'
    first
    | rfl
    | apply ctrlFlowImmOk_ite
  all_goals
    simp only [ctrlFlowImmOk, branchImmOk, jalImmOk, decide_eq_true_eq]
  all_goals first | exact hb | exact hj

/-- Witness for `decode_ctrl_flow_imm_bounds` at the word `0x00050663`
(`beq a0, zero, 12`). -/
theorem decode_ctrl_flow_imm_bounds_witness :
    ctrlFlowImmOk (decode_opcode 0x00050663) = true :=
  decode_ctrl_flow_imm_bounds 0x00050663 (by decide)

end Riscv
